import Mathlib

/-!
# dns-notify: the notify-and-collect engine

A shallow embedding of `dns-notify.go` (`sendNotify`, `fixupHost`) together with the
properties of the dispatcher, the host normaliser and the result model.

Go strings are byte strings.  Every byte the program inspects (`.`, `:`, `[`, `]`, `%`)
is ASCII, so searching for it in the list of characters of a valid UTF-8 string is the
same as searching for it in the bytes; strings are therefore Lean strings, inspected
through their character lists.
-/

namespace DnsNotify

/-! ## Strings (`strings` package) -/

/-- Go `strings.HasPrefix(s, p)`. -/
def HasPrefix (s p : String) : Bool := p.data.isPrefixOf s.data

/-- Go `strings.HasSuffix(s, p)`. -/
def HasSuffix (s p : String) : Bool := p.data.isSuffixOf s.data

/-! ## Address parsing (`net` package, an external collaborator) -/

/-- Go `net.AddrError`: the reason and the offending address. -/
structure AddrError where
  Err : String
  Addr : String
deriving DecidableEq, Repr

/-- Go `(*AddrError).Error()`: the reason, preceded by `address <addr>: ` when there
is an address. -/
def AddrError.Error (e : AddrError) : String :=
  if e.Addr ≠ "" then "address " ++ e.Addr ++ ": " ++ e.Err else e.Err

/-- Index of the last occurrence of `c`, `none` where Go returns `-1`. -/
def lastIndexByte : List Char → Char → Option Nat
  | [], _ => none
  | x :: xs, c =>
    match lastIndexByte xs c with
    | some i => some (i + 1)
    | none => if x = c then some 0 else none

/-- Index of the first occurrence of `c`, `none` where Go returns `-1`. -/
def indexByte : List Char → Char → Option Nat
  | [], _ => none
  | x :: xs, c => if x = c then some 0 else (indexByte xs c).map (· + 1)

/-- The tail of `net.SplitHostPort` shared by the bracketed and the plain branch:
no `[` from position `j` on, no `]` from position `k` on, the port follows colon `i`. -/
def splitTail (hostport : String) (i j k : Nat) (host : List Char) :
    Except AddrError (String × String) :=
  if (indexByte (hostport.data.drop j) '[').isSome then
    .error ⟨"unexpected '[' in address", hostport⟩
  else if (indexByte (hostport.data.drop k) ']').isSome then
    .error ⟨"unexpected ']' in address", hostport⟩
  else
    .ok (String.mk host, String.mk (hostport.data.drop (i + 1)))

/-- Go `net.SplitHostPort` (standard library, not part of this repository): splits
`host:port`, `[host]:port` and `[ipv6-host%zone]:port` into host and port. -/
def netSplitHostPort (hostport : String) : Except AddrError (String × String) :=
  let hp := hostport.data
  -- The port starts after the last colon.
  match lastIndexByte hp ':' with
  | none => .error ⟨"missing port in address", hostport⟩
  | some i =>
    if hp.head? = some '[' then
      -- Expect the first ']' just before the last ':'.
      match indexByte hp ']' with
      | none => .error ⟨"missing ']' in address", hostport⟩
      | some close =>
        if close + 1 = hp.length then
          -- There can't be a ':' behind the ']' now.
          .error ⟨"missing port in address", hostport⟩
        else if close + 1 = i then
          -- The expected result.
          splitTail hostport i 1 (close + 1) ((hp.take close).drop 1)
        else if hp.get? (close + 1) = some ':' then
          .error ⟨"too many colons in address", hostport⟩
        else
          .error ⟨"missing port in address", hostport⟩
    else
      let host := hp.take i
      if (indexByte host ':').isSome then
        .error ⟨"too many colons in address", hostport⟩
      else
        splitTail hostport i 0 0 host

/-- The library call as the program sees it: `host, port, err := net.SplitHostPort(s)`
with the error reduced to its text `err.Error()`. -/
def SplitHostPort (s : String) : Except String (String × String) :=
  match netSplitHostPort s with
  | .ok hp => .ok hp
  | .error e => .error e.Error

/-! ## Host normaliser -/

/-- Go `fixupHost(s string) (string, error)`; the error is carried as its text,
`none` standing for `nil`.  The parser `net.SplitHostPort` is a parameter. -/
def fixupHost (splitHostPort : String → Except String (String × String)) (s : String) :
    String × Option String :=
  match splitHostPort s with
  | .error err =>
    if HasPrefix err "missing port in address" then
      (s ++ ":53", none)
    else
      ("", some err)
  | .ok _ =>
    -- input was ok ...
    (s, none)

/-! ## Result model and external collaborators (`github.com/miekg/dns`) -/

/-- Go `NotifyResponse`: returned by the API, one per server. -/
structure NotifyResponse where
  Server : String
  Result : String
  Error : Bool
deriving DecidableEq, Repr

/-- Go `dns.Question`. -/
structure Question where
  Name : String
  Qtype : Nat
  Qclass : Nat
deriving DecidableEq, Repr

/-- Go `dns.Msg`, the header fields and the question section. -/
structure Msg where
  Id : Nat
  Opcode : Nat
  Authoritative : Bool
  Rcode : Int
  Question : List Question
deriving DecidableEq, Repr

/-- Go `new(dns.Msg)`: the zero message. -/
def Msg.new : Msg :=
  { Id := 0, Opcode := 0, Authoritative := false, Rcode := 0, Question := [] }

/-- Go `(*dns.Msg).SetNotify(z)`: a NOTIFY query for the SOA of zone `z`, with the
message id `id` drawn by the library. -/
def Msg.SetNotify (m : Msg) (id : Nat) (z : String) : Msg :=
  { m with Opcode := 4, Authoritative := true, Id := id,
           Question := [{ Name := z, Qtype := 6, Qclass := 1 }] }

/-- Go `dns.Client`, the field the program sets; a `time.Duration` in nanoseconds. -/
structure Client where
  ReadTimeout : Int
deriving DecidableEq, Repr

/-- Two's-complement wrap of an `int64` product. -/
def wrapInt64 (x : Int) : Int := (x + 2 ^ 63) % 2 ^ 64 - 2 ^ 63

/-- Everything `sendNotify` reads from outside itself: the command-line flags, the
address parser, and the DNS library.  `Exchange i c m target` is the outcome of the
call `c.Exchange(m, target)` made by the task of the `i`-th server: the response and
the round-trip time, or the text of the error. -/
structure Env where
  timeout : Int
  verbose : Bool
  quiet : Bool
  SplitHostPort : String → Except String (String × String)
  Exchange : Nat → Client → Msg → String → Except String (Msg × Int)
  RcodeToString : Int → String
  DurationString : Int → String
  Id : Nat

/-- One call of `c.Exchange(m, target)`. -/
structure ExchangeCall where
  client : Client
  msg : Msg
  target : String
deriving DecidableEq, Repr

/-- What one per-server task leaves behind: the result it sends on the channel, the
lines it prints, in order, and the exchange it made, if any. -/
structure Task where
  result : NotifyResponse
  printed : List String
  exchange : Option ExchangeCall
deriving DecidableEq, Repr

/-! ## Notify dispatcher -/

/-- The deferred function of the per-server task: print the result unless it is a
success under `-quiet`, then send it on the channel. -/
def deferred (env : Env) (result : NotifyResponse) (printed : List String)
    (exchange : Option ExchangeCall) : Task :=
  { result := result
    printed :=
      if result.Error || !env.quiet then
        printed ++ [result.Server ++ ": " ++ result.Result]
      else printed
    exchange := exchange }

/-- The body of `go func(server string) { ... }(server)` for the `i`-th server. -/
def goroutine (env : Env) (c : Client) (m : Msg) (i : Nat) (server : String) : Task :=
  let result : NotifyResponse := { Server := server, Result := "", Error := false }
  match fixupHost env.SplitHostPort server with
  | (_, some err) =>
    let result := { result with Result := server ++ ": " ++ err }
    let printed := [result.Result]
    let result := { result with Error := true }
    deferred env result printed none
  | (target, none) =>
    let result := { result with Server := target }
    let printed := if env.verbose then ["Sending notify to " ++ target] else []
    let call : ExchangeCall := { client := c, msg := m, target := target }
    match env.Exchange i c m target with
    | .error err =>
      let result := { result with Error := true }
      let result := { result with Result := err }
      deferred env result printed (some call)
    | .ok (resp, rtt) =>
      let ok :=
        if !resp.Authoritative then "not ok (" ++ env.RcodeToString resp.Rcode ++ ")"
        else "ok"
      let result :=
        { result with Result := target ++ ": " ++ ok ++ " (" ++ env.DurationString rtt ++ ")" }
      deferred env result printed (some call)

/-- The order in which the concurrent tasks reach the channel.  The channel has room
for every task, so no send blocks and any task still running may be the next to send:
each entry of the schedule picks one of the tasks still running (modulo their number);
once the schedule is used up the remaining tasks finish in launch order. -/
def arrivals {α : Type} : List Nat → List α → List α
  | [], running => running
  | _ :: _, [] => []
  | k :: ks, r :: rs =>
    let j := k % (r :: rs).length
    ((r :: rs).getD j r) :: arrivals ks ((r :: rs).eraseIdx j)

/-- The name the query is built for: `domain` with a trailing dot ensured. -/
def notifyDomain (domain : String) : String :=
  if !HasSuffix domain "." then domain ++ "." else domain

/-- The client `sendNotify` sets up: `c.ReadTimeout = time.Duration(*timeout) * time.Millisecond`. -/
def newClient (env : Env) : Client :=
  { ReadTimeout := wrapInt64 (env.timeout * 1000000) }

/-- The query `sendNotify` builds: `m := new(dns.Msg); m.SetNotify(domain)`. -/
def notifyMsg (env : Env) (domain : String) : Msg :=
  Msg.new.SetNotify env.Id (notifyDomain domain)

/-- The tasks `sendNotify` launches, one per server, in input order. -/
def launch (env : Env) (servers : List String) (domain : String) : List Task :=
  servers.enum.map fun p => goroutine env (newClient env) (notifyMsg env domain) p.1 p.2

/-- The observable outcome of one call of `sendNotify`: the returned slice, the lines
printed by `sendNotify` itself, and the tasks in the order their results were received. -/
structure Run where
  responses : List NotifyResponse
  printed : List String
  tasks : List Task
deriving DecidableEq, Repr

/-- The calls of `c.Exchange` made during a run. -/
def Run.exchanges (r : Run) : List ExchangeCall :=
  r.tasks.filterMap (·.exchange)

/-- Go `sendNotify(servers []string, domain string) []NotifyResponse`, under the
schedule `sched` of the concurrent tasks. -/
def sendNotify (env : Env) (sched : List Nat) (servers : List String) (domain : String) :
    Run :=
  if servers.length = 0 then
    let resp : NotifyResponse := { Server := "", Result := "No servers", Error := true }
    { responses := [resp], printed := ["No servers", "No servers"], tasks := [] }
  else
    let received := arrivals sched (launch env servers domain)
    { responses := received.map (·.result), printed := [], tasks := received }

/-! ## Outcomes of one server, as the properties below name them -/

/-- Address normalisation of `server` fails. -/
def normalizationFails (env : Env) (server : String) : Bool :=
  (fixupHost env.SplitHostPort server).2.isSome

/-- The exchange of the `i`-th server returns an error. -/
def exchangeFails (env : Env) (domain : String) (i : Nat) (server : String) : Bool :=
  match env.Exchange i (newClient env) (notifyMsg env domain)
      (fixupHost env.SplitHostPort server).1 with
  | .error _ => true
  | .ok _ => false

/-- An environment for the examples: the library parser, and a network in which
`good:53` answers authoritatively, `lame:53` answers without authority, and every
other target times out. -/
def demoEnv : Env :=
  { timeout := 2000, verbose := false, quiet := false, SplitHostPort := SplitHostPort,
    Exchange := fun _ _ _ target =>
      if target = "good:53" then .ok ({ Msg.new with Authoritative := true }, 1500000)
      else if target = "lame:53" then .ok ({ Msg.new with Rcode := 5 }, 1500000)
      else .error "i/o timeout"
    RcodeToString := fun r => if r = 5 then "REFUSED" else "NOERROR",
    DurationString := fun _ => "1.5ms", Id := 7 }

/-! ## The scheduler -/

theorem getD_cons_eraseIdx_perm {α : Type} (l : List α) (j : Nat) (d : α)
    (h : j < l.length) : (l.getD j d :: l.eraseIdx j).Perm l := by
  induction l generalizing j with
  | nil => simp at h
  | cons x xs ih =>
    cases j with
    | zero => simp
    | succ j =>
      have hj : j < xs.length := by simpa using h
      have := ih j hj
      simp only [List.getD_cons_succ, List.eraseIdx_cons_succ]
      exact (List.Perm.swap x _ _).trans (this.cons x)

theorem arrivals_perm {α : Type} (sched : List Nat) (running : List α) :
    (arrivals sched running).Perm running := by
  induction sched generalizing running with
  | nil => cases running <;> simp [arrivals]
  | cons k ks ih =>
    cases running with
    | nil => simp [arrivals]
    | cons r rs =>
      have hj : k % (r :: rs).length < (r :: rs).length := Nat.mod_lt _ (by simp)
      simp only [arrivals]
      exact ((ih _).cons _).trans (getD_cons_eraseIdx_perm _ _ r hj)

theorem arrivals_length {α : Type} (sched : List Nat) (running : List α) :
    (arrivals sched running).length = running.length :=
  (arrivals_perm sched running).length_eq

theorem arrivals_nil_sched {α : Type} (running : List α) : arrivals [] running = running := by
  cases running <;> rfl

/-- Every order of the tasks is the arrival order of some schedule. -/
theorem arrivals_complete {α : Type} (order running : List α) (h : order.Perm running) :
    ∃ sched, arrivals sched running = order := by
  induction order generalizing running with
  | nil =>
    have : running = [] := h.symm.eq_nil
    exact ⟨[], by subst this; rfl⟩
  | cons x xs ih =>
    have hx : x ∈ running := h.subset (List.mem_cons_self x xs)
    obtain ⟨j, hj, hget⟩ := List.getElem_of_mem hx
    have hperm : (x :: running.eraseIdx j).Perm running := by
      have := getD_cons_eraseIdx_perm running j x hj
      rwa [List.getD_eq_getElem _ _ hj, hget] at this
    have hrest : xs.Perm (running.eraseIdx j) :=
      (List.perm_cons x).1 (h.trans hperm.symm)
    obtain ⟨ks, hks⟩ := ih _ hrest
    refine ⟨j :: ks, ?_⟩
    cases running with
    | nil => simp at hj
    | cons r rs =>
      simp only [arrivals, Nat.mod_eq_of_lt hj, hks]
      rw [List.getD_eq_getElem _ _ hj, hget]

/-! ## The address parser and the normaliser -/

theorem fixupHost_of_ok (splitHostPort : String → Except String (String × String))
    (s : String) (hp : String × String) (h : splitHostPort s = .ok hp) :
    fixupHost splitHostPort s = (s, none) := by
  simp [fixupHost, h]

theorem splitHostPort_of_ok (s : String) (hp : String × String)
    (h : netSplitHostPort s = .ok hp) : SplitHostPort s = .ok hp := by
  simp [SplitHostPort, h]

theorem splitHostPort_of_error (s : String) (e : AddrError)
    (h : netSplitHostPort s = .error e) : SplitHostPort s = .error e.Error := by
  simp [SplitHostPort, h]

/-- Every error of the parser names the address it was given. -/
theorem netSplitHostPort_error_addr (s : String) (e : AddrError)
    (h : netSplitHostPort s = .error e) : e.Addr = s := by
  unfold netSplitHostPort at h
  simp only [splitTail] at h
  repeat' split at h
  all_goals (cases h <;> rfl)

/-- The text of an error that names a non-empty address starts with `address `, not
with the missing-port text. -/
theorem hasPrefix_error_of_addr (reason addr : String) (h : addr ≠ "") :
    HasPrefix (AddrError.Error ⟨reason, addr⟩) "missing port in address" = false := by
  unfold AddrError.Error HasPrefix
  simp only [h, ne_eq, not_false_eq_true, if_true, String.data_append]
  rfl

/-- For a non-empty address the parser rejects, whatever the reason, `fixupHost`
returns the empty string and the error: its text starts with `address `. -/
theorem fixupHost_of_error_nonempty (s : String) (e : AddrError) (hs : s ≠ "")
    (h : netSplitHostPort s = .error e) :
    fixupHost SplitHostPort s = ("", some e.Error) := by
  have haddr := netSplitHostPort_error_addr s e h
  obtain ⟨reason, addr⟩ := e
  simp only at haddr
  subst haddr
  simp [fixupHost, splitHostPort_of_error _ _ h, hasPrefix_error_of_addr reason _ hs]

/-! ## The dispatcher -/

theorem launch_length (env : Env) (servers : List String) (domain : String) :
    (launch env servers domain).length = servers.length := by
  simp [launch]

theorem sendNotify_of_ne_nil (env : Env) (sched : List Nat) (servers : List String)
    (domain : String) (h : servers ≠ []) :
    sendNotify env sched servers domain =
      { responses := (arrivals sched (launch env servers domain)).map (·.result),
        printed := [],
        tasks := arrivals sched (launch env servers domain) } := by
  have : servers.length ≠ 0 := by simpa using h
  simp [sendNotify, this]

theorem goroutine_error (env : Env) (domain : String) (i : Nat) (server : String) :
    (goroutine env (newClient env) (notifyMsg env domain) i server).result.Error =
      (normalizationFails env server || exchangeFails env domain i server) := by
  unfold goroutine normalizationFails exchangeFails
  rcases hf : fixupHost env.SplitHostPort server with ⟨target, _ | err⟩
  · rcases hx : env.Exchange i (newClient env) (notifyMsg env domain) target with e | ⟨resp, rtt⟩
    · simp [deferred, hx]
    · simp [deferred, hx]
  · simp [deferred]

theorem goroutine_exchange (env : Env) (c : Client) (m : Msg) (i : Nat) (server : String)
    (call : ExchangeCall) (h : (goroutine env c m i server).exchange = some call) :
    call = { client := c, msg := m, target := server } ∨
      call = { client := c, msg := m, target := server ++ ":53" } := by
  unfold goroutine at h
  rcases hf : fixupHost env.SplitHostPort server with ⟨target, _ | err⟩
  · have ht : target = server ∨ target = server ++ ":53" := by
      unfold fixupHost at hf
      split at hf
      · split at hf
        · exact Or.inr (by simpa using (congrArg Prod.fst hf).symm)
        · simp at hf
      · exact Or.inl (by simpa using (congrArg Prod.fst hf).symm)
    rw [hf] at h
    rcases hx : env.Exchange i c m target with e | ⟨resp, rtt⟩
    · simp only [hx, deferred, Option.some.injEq] at h
      rcases ht with ht | ht <;> subst ht <;> simp [← h]
    · simp only [hx, deferred, Option.some.injEq] at h
      rcases ht with ht | ht <;> subst ht <;> simp [← h]
  · rw [hf] at h
    simp [deferred] at h

theorem hasSuffix_append_self (s p : String) : HasSuffix (s ++ p) p = true := by
  simp [HasSuffix, List.isSuffixOf_iff_suffix]

theorem notifyDomain_hasSuffix (d : String) : HasSuffix (notifyDomain d) "." = true := by
  unfold notifyDomain
  by_cases h : HasSuffix d "." = true
  · simp [h]
  · simp [h, hasSuffix_append_self]

theorem notifyDomain_of_hasSuffix (d : String) (h : HasSuffix d "." = true) :
    notifyDomain d = d := by
  simp [notifyDomain, h]

theorem notifyDomain_of_not_hasSuffix (d : String) (h : HasSuffix d "." = false) :
    notifyDomain d = d ++ "." := by
  simp [notifyDomain, h]

theorem notifyDomain_idem (d : String) : notifyDomain (notifyDomain d) = notifyDomain d :=
  notifyDomain_of_hasSuffix _ (notifyDomain_hasSuffix d)

theorem goroutine_mem_launch (env : Env) (servers : List String) (domain : String)
    (i : Nat) (server : String) (h : servers.get? i = some server) :
    goroutine env (newClient env) (notifyMsg env domain) i server ∈
      launch env servers domain := by
  unfold launch
  refine List.mem_map.2 ⟨(i, server), ?_, rfl⟩
  rw [List.mk_mem_enum_iff_getElem?]
  simpa using h

theorem goroutine_of_normalizationFails (env : Env) (c : Client) (m : Msg) (i : Nat)
    (server : String) (h : normalizationFails env server = true) :
    (goroutine env c m i server).result.Error = true ∧
      (goroutine env c m i server).result.Server = server ∧
      (goroutine env c m i server).exchange = none := by
  unfold normalizationFails at h
  unfold goroutine
  rcases hf : fixupHost env.SplitHostPort server with ⟨target, _ | err⟩
  · simp [hf] at h
  · simp [deferred]

theorem launch_countP_error (env : Env) (servers : List String) (domain : String) :
    ((launch env servers domain).map (·.result)).countP (·.Error) =
      servers.enum.countP
        (fun p => normalizationFails env p.2 || exchangeFails env domain p.1 p.2) := by
  unfold launch
  rw [List.map_map, List.countP_map]
  apply List.countP_congr
  intro p _
  simp [goroutine_error]

theorem goroutine_exchange_of_normalized (env : Env) (c : Client) (m : Msg) (i : Nat)
    (server : String) (h : normalizationFails env server = false) :
    (goroutine env c m i server).exchange =
      some { client := c, msg := m, target := (fixupHost env.SplitHostPort server).1 } := by
  unfold normalizationFails at h
  unfold goroutine
  rcases hf : fixupHost env.SplitHostPort server with ⟨target, _ | err⟩
  · rcases hx : env.Exchange i c m target with e | ⟨resp, rtt⟩ <;> simp [deferred, hx]
  · simp [hf] at h

theorem hasSuffix_dot_iff (d : String) :
    HasSuffix d "." = true ↔ d.data.getLast? = some '.' := by
  unfold HasSuffix
  rw [List.isSuffixOf_iff_suffix]
  constructor
  · rintro ⟨t, ht⟩
    rw [← ht]
    exact List.getLast?_concat t
  · intro h
    exact ⟨d.data.dropLast, List.dropLast_append_getLast? _ h⟩

/-! ## Properties -/

/-- C1 (cardinality): for every server list of length `N`, every domain, every
outcome of the exchanges and every schedule of the tasks, `sendNotify` returns
exactly `max N 1` results. -/
theorem sendNotify_cardinality (env : Env) (sched : List Nat) (servers : List String)
    (domain : String) :
    (sendNotify env sched servers domain).responses.length = max servers.length 1 := by
  by_cases h : servers = []
  · subst h
    simp [sendNotify]
  · rw [sendNotify_of_ne_nil env sched servers domain h]
    have hpos : 0 < servers.length := List.length_pos.2 h
    simp only [List.length_map, arrivals_length, launch_length]
    omega

/-- C4 (empty input): with no servers `sendNotify` makes no exchange and returns
exactly one result, whose `Error` is true and whose `Result` is `No servers`. -/
theorem sendNotify_no_servers (env : Env) (sched : List Nat) (domain : String) :
    (sendNotify env sched [] domain).responses =
        [{ Server := "", Result := "No servers", Error := true }] ∧
      (sendNotify env sched [] domain).exchanges = [] ∧
      (sendNotify env sched [] domain).tasks = [] := by
  simp [sendNotify, Run.exchanges]

/-- C2, as the code has it (arrival order): for every non-empty server list and every
schedule, the returned list holds the per-server results in the order the tasks
finish; it is a permutation of the results of the input servers, it is in input
order when the tasks finish in input order, and every order of the results is
returned under some schedule. -/
theorem sendNotify_responses_arrival_order (env : Env) (sched : List Nat)
    (servers : List String) (domain : String) (h : servers ≠ []) :
    (sendNotify env sched servers domain).responses =
        (arrivals sched (launch env servers domain)).map (·.result) ∧
      (sendNotify env sched servers domain).responses.Perm
        ((launch env servers domain).map (·.result)) ∧
      (sendNotify env [] servers domain).responses =
        (launch env servers domain).map (·.result) ∧
      ∀ order : List Task, order.Perm (launch env servers domain) →
        ∃ sched', (sendNotify env sched' servers domain).responses =
          order.map (·.result) := by
  refine ⟨?_, ?_, ?_, ?_⟩
  · rw [sendNotify_of_ne_nil env sched servers domain h]
  · rw [sendNotify_of_ne_nil env sched servers domain h]
    exact (arrivals_perm sched _).map _
  · rw [sendNotify_of_ne_nil env [] servers domain h, arrivals_nil_sched]
  · intro order horder
    obtain ⟨sched', hs⟩ := arrivals_complete order _ horder
    exact ⟨sched', by rw [sendNotify_of_ne_nil env sched' servers domain h, hs]⟩

/-- C3 (error containment): for every non-empty server list and every schedule, no
result is dropped (one result per server, a permutation of the per-server results),
the number of results with `Error = true` is the number of servers whose address
normalisation fails or whose exchange returns an error, and a server whose
normalisation fails gets `Error = true`, `Server` equal to the raw input, and no
exchange. -/
theorem sendNotify_error_containment (env : Env) (sched : List Nat)
    (servers : List String) (domain : String) (h : servers ≠ []) :
    (sendNotify env sched servers domain).responses.length = servers.length ∧
      (sendNotify env sched servers domain).responses.Perm
        ((launch env servers domain).map (·.result)) ∧
      (sendNotify env sched servers domain).responses.countP (·.Error) =
        servers.enum.countP
          (fun p => normalizationFails env p.2 || exchangeFails env domain p.1 p.2) ∧
      ∀ (i : Nat) (server : String), servers.get? i = some server →
        normalizationFails env server = true →
        goroutine env (newClient env) (notifyMsg env domain) i server ∈
            (sendNotify env sched servers domain).tasks ∧
          (goroutine env (newClient env) (notifyMsg env domain) i server).result.Error
            = true ∧
          (goroutine env (newClient env) (notifyMsg env domain) i server).result.Server
            = server ∧
          (goroutine env (newClient env) (notifyMsg env domain) i server).exchange
            = none := by
  rw [sendNotify_of_ne_nil env sched servers domain h]
  refine ⟨?_, ?_, ?_, ?_⟩
  · simp [arrivals_length, launch_length]
  · exact (arrivals_perm sched _).map _
  · rw [((arrivals_perm sched (launch env servers domain)).map (·.result)).countP_eq]
    exact launch_countP_error env servers domain
  · intro i server hi hfail
    refine ⟨?_, goroutine_of_normalizationFails env _ _ i server hfail⟩
    exact (arrivals_perm sched _).mem_iff.2 (goroutine_mem_launch env servers domain i server hi)

/-- C2 fails as stated: with servers `good:53`, `timeout:53` and the second task
finishing first, the first returned element is the result of the second server. -/
theorem sendNotify_input_order_counterexample :
    (launch demoEnv ["good:53", "timeout:53"] "example.com").map (·.result) =
        [{ Server := "good:53", Result := "good:53: ok (1.5ms)", Error := false },
         { Server := "timeout:53", Result := "i/o timeout", Error := true }] ∧
      (sendNotify demoEnv [1] ["good:53", "timeout:53"] "example.com").responses =
        [{ Server := "timeout:53", Result := "i/o timeout", Error := true },
         { Server := "good:53", Result := "good:53: ok (1.5ms)", Error := false }] ∧
      (sendNotify demoEnv [1] ["good:53", "timeout:53"] "example.com").responses.get? 0 ≠
        ((launch demoEnv ["good:53", "timeout:53"] "example.com").map (·.result)).get? 0 := by
  decide

/-- C2, arrival order, at servers `good:53`, `timeout:53` with the second task
finishing first. -/
theorem sendNotify_responses_arrival_order_witness :
    (["good:53", "timeout:53"] : List String) ≠ [] ∧
      (sendNotify demoEnv [1] ["good:53", "timeout:53"] "example.com").responses.Perm
        ((launch demoEnv ["good:53", "timeout:53"] "example.com").map (·.result)) ∧
      (sendNotify demoEnv [] ["good:53", "timeout:53"] "example.com").responses =
        (launch demoEnv ["good:53", "timeout:53"] "example.com").map (·.result) :=
  ⟨by decide,
   (sendNotify_responses_arrival_order demoEnv [1] ["good:53", "timeout:53"]
      "example.com" (by decide)).2.1,
   (sendNotify_responses_arrival_order demoEnv [1] ["good:53", "timeout:53"]
      "example.com" (by decide)).2.2.1⟩

/-- C3 at the servers `good:53`, `bad-addr-syntax-@@`, `timeout:53`, the last task
finishing first: three results, exactly two with `Error = true`; and at a list whose
second address does not normalise: its task reports the raw address, `Error = true`,
and makes no exchange. -/
theorem sendNotify_error_containment_witness :
    (["good:53", "bad-addr-syntax-@@", "timeout:53"] : List String) ≠ [] ∧
      (sendNotify demoEnv [2, 0] ["good:53", "bad-addr-syntax-@@", "timeout:53"]
        "example.com").responses.length = 3 ∧
      (sendNotify demoEnv [2, 0] ["good:53", "bad-addr-syntax-@@", "timeout:53"]
        "example.com").responses.countP (·.Error) = 2 ∧
      (["good:53", "not a valid address::", "timeout:53"] : List String).get? 1 =
        some "not a valid address::" ∧
      normalizationFails demoEnv "not a valid address::" = true ∧
      (goroutine demoEnv (newClient demoEnv) (notifyMsg demoEnv "example.com") 1
        "not a valid address::").result.Server = "not a valid address::" ∧
      (goroutine demoEnv (newClient demoEnv) (notifyMsg demoEnv "example.com") 1
        "not a valid address::").exchange = none :=
  ⟨by decide,
   (sendNotify_error_containment demoEnv [2, 0]
      ["good:53", "bad-addr-syntax-@@", "timeout:53"] "example.com" (by decide)).1,
   (sendNotify_error_containment demoEnv [2, 0]
      ["good:53", "bad-addr-syntax-@@", "timeout:53"] "example.com"
      (by decide)).2.2.1.trans (by decide),
   by decide, by decide,
   ((sendNotify_error_containment demoEnv [2, 0]
      ["good:53", "not a valid address::", "timeout:53"] "example.com"
      (by decide)).2.2.2 1 "not a valid address::" (by decide) (by decide)).2.2.1,
   ((sendNotify_error_containment demoEnv [2, 0]
      ["good:53", "not a valid address::", "timeout:53"] "example.com"
      (by decide)).2.2.2 1 "not a valid address::" (by decide) (by decide)).2.2.2⟩

/-- C5 fails as stated: a response that is not authoritative, received without
error, gives a result with `Error = false`. -/
theorem goroutine_not_authoritative_counterexample :
    (goroutine demoEnv (newClient demoEnv) (notifyMsg demoEnv "example.com") 0
        "lame:53").result =
        { Server := "lame:53", Result := "lame:53: not ok (REFUSED) (1.5ms)",
          Error := false } ∧
      (sendNotify demoEnv [] ["lame:53"] "example.com").responses =
        [{ Server := "lame:53", Result := "lame:53: not ok (REFUSED) (1.5ms)",
           Error := false }] ∧
      ∃ resp rtt,
        demoEnv.Exchange 0 (newClient demoEnv) (notifyMsg demoEnv "example.com")
          "lame:53" = .ok (resp, rtt) ∧ resp.Authoritative = false :=
  ⟨by decide, by decide, _, _, rfl, rfl⟩

/-- C5, as the code has it: a per-server result has `Error = false` only when the
address normalised and the exchange returned a response without error, whether or
not the response is authoritative; the result then names the target, and its text
reads `ok` for an authoritative response and `not ok (rcode)` otherwise. -/
theorem goroutine_success_only_after_response (env : Env) (c : Client) (m : Msg)
    (i : Nat) (server : String)
    (h : (goroutine env c m i server).result.Error = false) :
    ∃ target resp rtt,
      fixupHost env.SplitHostPort server = (target, none) ∧
      env.Exchange i c m target = .ok (resp, rtt) ∧
      (goroutine env c m i server).exchange =
        some { client := c, msg := m, target := target } ∧
      (goroutine env c m i server).result.Server = target ∧
      (goroutine env c m i server).result.Result =
        target ++ ": " ++
          (if resp.Authoritative then "ok"
           else "not ok (" ++ env.RcodeToString resp.Rcode ++ ")") ++
          " (" ++ env.DurationString rtt ++ ")" := by
  unfold goroutine at h ⊢
  rcases hf : fixupHost env.SplitHostPort server with ⟨target, _ | err⟩
  · rw [hf] at h
    rcases hx : env.Exchange i c m target with e | ⟨resp, rtt⟩
    · simp [hx, deferred] at h
    · refine ⟨target, resp, rtt, rfl, hx, ?_⟩
      cases ha : resp.Authoritative <;> simp [hx, deferred, ha]
  · rw [hf] at h
    simp [deferred] at h

/-- C5, as the code has it, at the authoritative answer of `good:53`. -/
theorem goroutine_success_only_after_response_witness :
    (goroutine demoEnv (newClient demoEnv) (notifyMsg demoEnv "example.com") 0
        "good:53").result.Error = false ∧
      ∃ target resp rtt,
        fixupHost demoEnv.SplitHostPort "good:53" = (target, none) ∧
        demoEnv.Exchange 0 (newClient demoEnv) (notifyMsg demoEnv "example.com") target
          = .ok (resp, rtt) ∧
        (goroutine demoEnv (newClient demoEnv) (notifyMsg demoEnv "example.com") 0
          "good:53").exchange =
          some { client := newClient demoEnv, msg := notifyMsg demoEnv "example.com",
                 target := target } ∧
        (goroutine demoEnv (newClient demoEnv) (notifyMsg demoEnv "example.com") 0
          "good:53").result.Server = target ∧
        (goroutine demoEnv (newClient demoEnv) (notifyMsg demoEnv "example.com") 0
          "good:53").result.Result =
          target ++ ": " ++
            (if resp.Authoritative then "ok"
             else "not ok (" ++ demoEnv.RcodeToString resp.Rcode ++ ")") ++
            " (" ++ demoEnv.DurationString rtt ++ ")" :=
  ⟨by decide,
   goroutine_success_only_after_response demoEnv (newClient demoEnv)
     (notifyMsg demoEnv "example.com") 0 "good:53" (by decide)⟩

/-- C9 (domain trailing-dot normalisation): the name `sendNotify` builds the query
for ends with a dot, is the domain itself when that already ends with a dot and the
domain followed by a dot otherwise; normalising twice changes nothing; every server
whose address normalises is sent the NOTIFY query for that name, and no message for
another name is handed to the exchange; a domain without the trailing dot gives the
same query and the same run as the domain with it. -/
theorem sendNotify_domain_trailing_dot (env : Env) (sched : List Nat)
    (servers : List String) (d : String) :
    HasSuffix (notifyDomain d) "." = true ∧
      (notifyDomain d).data.getLast? = some '.' ∧
      (HasSuffix d "." = true → notifyDomain d = d) ∧
      (HasSuffix d "." = false → notifyDomain d = d ++ ".") ∧
      (d.data.getLast? = some '.' → notifyDomain d = d) ∧
      (d.data.getLast? ≠ some '.' → notifyDomain d = d ++ ".") ∧
      notifyDomain (notifyDomain d) = notifyDomain d ∧
      (∀ call ∈ (sendNotify env sched servers d).exchanges,
        call.msg = Msg.new.SetNotify env.Id (notifyDomain d) ∧
        call.msg.Question = [{ Name := notifyDomain d, Qtype := 6, Qclass := 1 }]) ∧
      (∀ (i : Nat) (server : String), servers.get? i = some server →
        normalizationFails env server = false →
        { client := newClient env,
          msg := Msg.new.SetNotify env.Id (notifyDomain d),
          target := (fixupHost env.SplitHostPort server).1 } ∈
            (sendNotify env sched servers d).exchanges) ∧
      (HasSuffix d "." = false →
        notifyMsg env d = notifyMsg env (d ++ ".") ∧
        sendNotify env sched servers d = sendNotify env sched servers (d ++ ".")) := by
  refine ⟨notifyDomain_hasSuffix d, (hasSuffix_dot_iff _).1 (notifyDomain_hasSuffix d),
    notifyDomain_of_hasSuffix d, notifyDomain_of_not_hasSuffix d,
    fun h => notifyDomain_of_hasSuffix d ((hasSuffix_dot_iff d).2 h),
    fun h => notifyDomain_of_not_hasSuffix d ?_, notifyDomain_idem d, ?_, ?_, ?_⟩
  · cases hd : HasSuffix d "."
    · rfl
    · exact absurd ((hasSuffix_dot_iff d).1 hd) h
  · intro call hcall
    by_cases hs : servers = []
    · subst hs
      simp [sendNotify, Run.exchanges] at hcall
    · rw [sendNotify_of_ne_nil env sched servers d hs] at hcall
      simp only [Run.exchanges, List.mem_filterMap] at hcall
      obtain ⟨t, ht, hex⟩ := hcall
      have ht' : t ∈ launch env servers d := (arrivals_perm sched _).mem_iff.1 ht
      simp only [launch, List.mem_map] at ht'
      obtain ⟨p, _, rfl⟩ := ht'
      have hmsg : call.msg = notifyMsg env d := by
        rcases goroutine_exchange env _ _ _ _ call hex with h | h <;> rw [h]
      rw [hmsg]
      exact ⟨rfl, rfl⟩
  · intro i server hi hnorm
    have hs : servers ≠ [] := by
      intro e
      subst e
      simp at hi
    rw [sendNotify_of_ne_nil env sched servers d hs]
    simp only [Run.exchanges, List.mem_filterMap]
    refine ⟨goroutine env (newClient env) (notifyMsg env d) i server, ?_, ?_⟩
    · exact (arrivals_perm sched _).mem_iff.2 (goroutine_mem_launch env servers d i server hi)
    · exact goroutine_exchange_of_normalized env _ _ i server hnorm
  · intro hd
    have hmsg : notifyMsg env d = notifyMsg env (d ++ ".") := by
      unfold notifyMsg
      rw [notifyDomain_of_not_hasSuffix d hd,
        notifyDomain_of_hasSuffix (d ++ ".") (hasSuffix_append_self d ".")]
    refine ⟨hmsg, ?_⟩
    unfold sendNotify launch
    rw [hmsg]

/-- C9 at `example.com` and `example.com.` with the server `ns1:53`: both names
normalise to `example.com.`, both runs hand the exchange the one NOTIFY query for
`example.com.`, and the two runs are equal. -/
theorem sendNotify_domain_trailing_dot_witness :
    notifyDomain "example.com" = "example.com." ∧
      notifyDomain "example.com." = "example.com." ∧
      (sendNotify demoEnv [] ["ns1:53"] "example.com").exchanges =
        [{ client := { ReadTimeout := 2000000000 },
           msg := { Id := 7, Opcode := 4, Authoritative := true, Rcode := 0,
                    Question := [{ Name := "example.com.", Qtype := 6, Qclass := 1 }] },
           target := "ns1:53" }] ∧
      (sendNotify demoEnv [] ["ns1:53"] "example.com.").exchanges =
        [{ client := { ReadTimeout := 2000000000 },
           msg := { Id := 7, Opcode := 4, Authoritative := true, Rcode := 0,
                    Question := [{ Name := "example.com.", Qtype := 6, Qclass := 1 }] },
           target := "ns1:53" }] ∧
      { client := newClient demoEnv,
        msg := Msg.new.SetNotify demoEnv.Id (notifyDomain "example.com"),
        target := (fixupHost demoEnv.SplitHostPort "ns1:53").1 } ∈
          (sendNotify demoEnv [] ["ns1:53"] "example.com").exchanges ∧
      sendNotify demoEnv [] ["ns1:53"] "example.com" =
        sendNotify demoEnv [] ["ns1:53"] "example.com." :=
  ⟨by decide, by decide, by decide, by decide,
   (sendNotify_domain_trailing_dot demoEnv [] ["ns1:53"] "example.com").2.2.2.2.2.2.2.2.1
     0 "ns1:53" (by decide) (by decide),
   ((sendNotify_domain_trailing_dot demoEnv [] ["ns1:53"] "example.com").2.2.2.2.2.2.2.2.2
     (by decide)).2⟩

/-- C6 is not met by the code: `ns1.example.com` fails to parse because the port is
missing, yet `fixupHost` does not repair it.  The error text is
`address ns1.example.com: missing port in address`, which does not start with
`missing port in address`, so the test of line 133 fails and line 137 returns the
empty string with the error. -/
theorem fixupHost_missing_port_not_repaired :
    netSplitHostPort "ns1.example.com" =
        .error ⟨"missing port in address", "ns1.example.com"⟩ ∧
      HasPrefix "address ns1.example.com: missing port in address"
        "missing port in address" = false ∧
      fixupHost SplitHostPort "ns1.example.com" =
        ("", some "address ns1.example.com: missing port in address") ∧
      fixupHost SplitHostPort "ns1.example.com" ≠ ("ns1.example.com:53", none) :=
  ⟨rfl, by decide, by decide, by decide⟩

/-- C7 fails as stated: `not a valid address::` has too many colons, and `fixupHost`
returns the empty string with the error, not the original string. -/
theorem fixupHost_malformed_counterexample :
    SplitHostPort "not a valid address::" =
        .error "address not a valid address::: too many colons in address" ∧
      fixupHost SplitHostPort "not a valid address::" =
        ("", some "address not a valid address::: too many colons in address") ∧
      (fixupHost SplitHostPort "not a valid address::").1 ≠ "not a valid address::" :=
  ⟨rfl, by decide, by decide⟩

/-- C7, as the code has it: for every raw address `s` whose parse fails for a reason
other than a missing port, `fixupHost s` returns the empty string together with the
parse error. -/
theorem fixupHost_malformed (splitHostPort : String → Except String (String × String))
    (s err : String) (hparse : splitHostPort s = .error err)
    (hother : HasPrefix err "missing port in address" = false) :
    fixupHost splitHostPort s = ("", some err) := by
  simp [fixupHost, hparse, hother]

/-- C7, as the code has it, at `not a valid address::`. -/
theorem fixupHost_malformed_witness :
    SplitHostPort "not a valid address::" =
        .error "address not a valid address::: too many colons in address" ∧
      HasPrefix "address not a valid address::: too many colons in address"
        "missing port in address" = false ∧
      fixupHost SplitHostPort "not a valid address::" =
        ("", some "address not a valid address::: too many colons in address") :=
  ⟨rfl, by decide,
   fixupHost_malformed SplitHostPort "not a valid address::"
     "address not a valid address::: too many colons in address" rfl (by decide)⟩

/-- C8 (normalisation idempotence): for every raw address `s`, if `fixupHost s`
returns `(t, nil)` then `t` parses as host:port and `fixupHost t` returns `(t, nil)`. -/
theorem fixupHost_idempotent (s t : String)
    (h : fixupHost SplitHostPort s = (t, none)) :
    (∃ hp, SplitHostPort t = .ok hp) ∧ fixupHost SplitHostPort t = (t, none) := by
  cases hn : netSplitHostPort s with
  | ok hp =>
    have hok := splitHostPort_of_ok s hp hn
    have hts : t = s := by
      rw [fixupHost_of_ok SplitHostPort s hp hok] at h
      exact (congrArg Prod.fst h).symm
    subst hts
    exact ⟨⟨hp, hok⟩, h⟩
  | error e =>
    by_cases hs : s = ""
    · subst hs
      have hts : t = ":53" := (congrArg Prod.fst h).symm
      subst hts
      exact ⟨⟨("", "53"), rfl⟩, by decide⟩
    · rw [fixupHost_of_error_nonempty s e hs hn] at h
      cases h

/-- C8 at the accepted `ns1.example.com:53` and at the repaired empty address: each
result parses as host:port and is returned unchanged by a second normalisation. -/
theorem fixupHost_idempotent_witness :
    (fixupHost SplitHostPort "ns1.example.com:53" = ("ns1.example.com:53", none) ∧
      (∃ hp, SplitHostPort "ns1.example.com:53" = .ok hp) ∧
      fixupHost SplitHostPort "ns1.example.com:53" = ("ns1.example.com:53", none)) ∧
    (fixupHost SplitHostPort "" = (":53", none) ∧
      (∃ hp, SplitHostPort ":53" = .ok hp) ∧
      fixupHost SplitHostPort ":53" = (":53", none)) :=
  ⟨⟨by decide,
    fixupHost_idempotent "ns1.example.com:53" "ns1.example.com:53" (by decide)⟩,
   ⟨by decide, fixupHost_idempotent "" ":53" (by decide)⟩⟩

end DnsNotify

